import Mathlib

/-!
# Verification of the vendor billing/invoicing system

Shallow embedding of the invoice computation engine, the invoice item
editor, the batch invoice generation loop, the vendor alias registry and
the vendor-charge editor of the repository, with proofs of the spec's
testable properties.

Conventions:
* JavaScript numbers that can be `NaN` are embedded as `JSNum := Option ℤ`
  (`none` = `NaN`); integer currency arithmetic never overflows in the
  source's value range, so `ℤ` is used for the numeric payload. Where the
  distinction between `NaN` and `±Infinity` matters (finiteness of edited
  fields), the editor is embedded a second time over `JSN`, which carries
  `nan`, `posInf`, `negInf` and the finite values separately.
* React component state is embedded explicitly; a JS closure's captured
  `const` binding is a plain Lean function argument (it cannot change
  during one invocation, exactly as in JavaScript).
* The source's Korean field names (항목 label, 수량 quantity, 단가 unit
  price, 금액 amount, 비고 remark) are not valid Lean identifiers and are
  carried as their English equivalents.
-/

namespace Billing

/-- A JavaScript number: `none` models `NaN`, `some n` a real (integer)
number. The sources only ever hold integer currency amounts. -/
def JSNum : Type := Option ℤ

instance : DecidableEq JSNum := by
  unfold JSNum
  infer_instance

/-- The JavaScript expression `x || 0` applied to a number `x`:
`NaN` (falsy) gives `0`, the falsy number `0` also gives `0` (which equals
`x` itself), and any other number gives `x`. -/
def jsOrZero (x : JSNum) : ℤ :=
  match x with
  | none => 0
  | some n => n

/-- JavaScript multiplication of two numbers: `NaN` propagates. -/
def jsMul (a b : JSNum) : JSNum :=
  match a, b with
  | some x, some y => some (x * y)
  | _, _ => none

/-- A value arriving from a DOM input (`string | number` in the source).
`asNumber` is its JS `Number(value)` coercion (`none` when that coercion
yields `NaN`, e.g. for non-numeric text); `asString` its `String(value)`
coercion. -/
structure JSValue where
  asNumber : JSNum
  asString : String
  asBool : Bool := false

/-- An invoice item as edited in `InvoiceListPage` of
`src/unnamed/part_004` (interface `InvoiceItem` with fields
항목/수량/단가/금액/비고). -/
structure EditItem where
  label : String
  quantity : JSNum
  unitPrice : JSNum
  amount : JSNum
  remark : String
deriving DecidableEq

/-- The editable fields of an invoice item (the `keyof InvoiceItem`
argument of `handleItemChange`). -/
inductive ItemField
  | label
  | quantity
  | unitPrice
  | amount
  | remark
deriving DecidableEq

/-- Field assignment `updated[index][field] = ...` of `handleItemChange`
(src/unnamed/part_004, lines 181-193): the numeric fields 수량/단가/금액
are set to `Number(value) || 0`, the string fields to `String(value)`. -/
def setItemField (it : EditItem) (field : ItemField) (value : JSValue) : EditItem :=
  match field with
  | .label => { it with label := value.asString }
  | .quantity => { it with quantity := some (jsOrZero value.asNumber) }
  | .unitPrice => { it with unitPrice := some (jsOrZero value.asNumber) }
  | .amount => { it with amount := some (jsOrZero value.asNumber) }
  | .remark => { it with remark := value.asString }

/-- The per-item effect of `handleItemChange`: assign the field, then, when
quantity (수량) or unit price (단가) changed, recompute
`updated[index].금액 = updated[index].수량 * updated[index].단가`. -/
def applyItemChange (it : EditItem) (field : ItemField) (value : JSValue) : EditItem :=
  let u := setItemField it field value
  match field with
  | .quantity => { u with amount := jsMul u.quantity u.unitPrice }
  | .unitPrice => { u with amount := jsMul u.quantity u.unitPrice }
  | _ => u

/-- `handleItemChange(index, field, value)` of `src/unnamed/part_004`:
copy the list and update the row at `index`. -/
def handleItemChange : List EditItem → Nat → ItemField → JSValue → List EditItem
  | [], _, _, _ => []
  | it :: rest, 0, field, value => applyItemChange it field value :: rest
  | it :: rest, Nat.succ n, field, value => it :: handleItemChange rest n field value

/-- `handleAddItem` of `src/unnamed/part_004`: append an all-empty row
`(항목 := "", 수량 := 0, 단가 := 0, 금액 := 0, 비고 := "")`. -/
def handleAddItem (items : List EditItem) : List EditItem :=
  items ++ [{ label := "", quantity := some 0, unitPrice := some 0,
              amount := some 0, remark := "" }]

/-- `handleRemoveItem(index)` of `src/unnamed/part_004`:
`editItems.filter((_, i) => i !== index)`. -/
def handleRemoveItem : List EditItem → Nat → List EditItem
  | [], _ => []
  | _ :: rest, 0 => rest
  | it :: rest, Nat.succ n => it :: handleRemoveItem rest n

/-- `editTotalAmount` of `src/unnamed/part_004` (line 377):
`editItems.reduce((sum, item) => sum + (item.금액 || 0), 0)`, the total
displayed while editing; it is a derived value recomputed synchronously
from the current `editItems` list on every state change. -/
def editTotalAmount (items : List EditItem) : ℤ :=
  items.foldl (fun sum item => sum + jsOrZero item.amount) 0

/-- Sum of the items' amounts (`sum(item.amount for item in items)` of the
spec), reading a `NaN` amount as 0 exactly as the display code does. -/
def sumAmounts (items : List EditItem) : ℤ :=
  (items.map (fun item => jsOrZero item.amount)).sum

/-! ## Batch invoice generation (`handleBatchCalculate`, `handleStopBatch`)

From `src/frontend/src/app/page.tsx`, lines 298-376. The awaited
`calculateInvoice` HTTP call is abstracted as `calcInvoice : String → Except String ℤ` (success carries `total_amount`, failure the thrown error
message) and the wall clock as `elapsed : Nat → ℤ` (duration of the i-th
call, the `(Date.now() - startTime) / 1000` measurement).

React semantics embedded explicitly: `captured` is the value of the
`stopRequested` binding that the invoked closure of
`handleBatchCalculate` holds for its whole run (a JS `const` from the
render in which the start button was clicked — `setStopRequested` can
never change it mid-run). `events i = true` models the user clicking the
stop button (`handleStopBatch`, i.e. `setStopRequested(true)`) before
loop iteration `i`; it updates the component's render state
`renderStop`, which the loop body never reads. -/

/-- Status column of the batch progress/log table. -/
inductive BatchStatus
  | pending
  | processing
  | success
  | error
deriving DecidableEq

/-- One row of the batch progress/log table (interface `BatchLog`). -/
structure BatchLog where
  vendor : String
  status : BatchStatus
  message : String
  duration : Option ℤ
deriving DecidableEq

/-- Success message `✅ 완료 (₩<total>)`; the locale digit grouping of
`toLocaleString` is abstracted to plain decimal digits. -/
def successMessage (totalAmount : ℤ) : String :=
  "✅ 완료 (₩" ++ toString totalAmount ++ ")"

/-- Error message `❌ <error message>`. -/
def errorMessage (e : String) : String :=
  "❌ " ++ e

/-- The log row written for vendor `v` at loop iteration `i` once its
`calculateInvoice` call settles (the `try`/`catch` of the loop body). -/
def batchEntry (calcInvoice : String → Except String ℤ) (elapsed : Nat → ℤ)
    (i : Nat) (v : String) : BatchLog :=
  match calcInvoice v with
  | .ok amt =>
      { vendor := v, status := .success, message := successMessage amt,
        duration := some (elapsed i) }
  | .error e =>
      { vendor := v, status := .error, message := errorMessage e,
        duration := some (elapsed i) }

/-- The initial `'대기 중...'` (pending) row for a vendor. -/
def pendingEntry (v : String) : BatchLog :=
  { vendor := v, status := .pending, message := "대기 중...", duration := none }

/-- The `'사용자 중지'` row written over the pending entry when the loop
observes the stop flag and breaks (spread of the pending row, so no
duration is recorded). -/
def stopEntry (v : String) : BatchLog :=
  { vendor := v, status := .error, message := "사용자 중지", duration := none }

/-- The `for` loop of `handleBatchCalculate` from iteration `i` on.
`captured` is the closure's `stopRequested` binding: the guard
`if (stopRequested)` reads it, and it is constant for the whole run.
`renderStop` is the component's current `stopRequested` render state: a
stop click (`events`) updates it, but no code in the running loop reads
it — that is precisely what the source does. On break the remaining
vendors keep their pending rows. -/
def runBatchFrom (calcInvoice : String → Except String ℤ) (elapsed : Nat → ℤ)
    (captured : Bool) (events : Nat → Bool) :
    Nat → Bool → List String → List BatchLog
  | _, _, [] => []
  | i, renderStop, v :: rest =>
      let renderStop' := renderStop || events i
      if captured then
        stopEntry v :: rest.map pendingEntry
      else
        batchEntry calcInvoice elapsed i v ::
          runBatchFrom calcInvoice elapsed captured events (i + 1) renderStop' rest

/-- `handleBatchCalculate` for a non-empty selection: initializes the log
rows, runs the loop from iteration 0, and returns the final `batchLogs`
list. At invocation the body executes `setStopRequested(false)`, so the
render state starts `false`; `captured` is the closure's binding. -/
def handleBatchCalculate (calcInvoice : String → Except String ℤ) (elapsed : Nat → ℤ)
    (captured : Bool) (events : Nat → Bool) (selectedVendors : List String) :
    List BatchLog :=
  runBatchFrom calcInvoice elapsed captured events 0 false selectedVendors

/-! ## Invoice detail modal (`InvoiceListPage` of `src/unnamed/part_004`) -/

/-- The loaded invoice detail (interface `InvoiceDetail`). -/
structure InvoiceDetail where
  invoice_id : ℤ
  vendor : String
  period_from : String
  period_to : String
  total_amount : ℤ
  status : String
  items : List EditItem

/-- The modal's component state relevant to editing. -/
structure ModalState where
  detailInvoice : Option InvoiceDetail
  isEditing : Bool
  editItems : List EditItem

/-- `handleStartEdit` (src/unnamed/part_004, lines 165-170): if a detail
is loaded, copy its items into `editItems` and enter edit mode. The
source contains no check of `detailInvoice.status`. -/
def handleStartEdit (s : ModalState) : ModalState :=
  match s.detailInvoice with
  | some d => { s with editItems := d.items.map id, isEditing := true }
  | none => s

/-- The PUT `/invoices/{id}/items` request body assembled by `handleSave`
(src/unnamed/part_004, lines 218-255): `(invoice_id, items)`. Guarded
only by `if (!detailInvoice) return;` — again no status check. -/
def handleSaveRequest (s : ModalState) : Option (ℤ × List EditItem) :=
  match s.detailInvoice with
  | some d => some (d.invoice_id, s.editItems)
  | none => none

/-! ## Vendor ad-hoc/recurring charge editor (`src/unnamed/part_005`) -/

/-- A vendor charge row (interface `VendorCharge`). -/
structure VendorCharge where
  vendor_id : String
  item_name : String
  qty : JSNum
  unit_price : JSNum
  amount : JSNum
  remark : String
  charge_type : String
  is_active : Bool
deriving DecidableEq

/-- The editable fields of a vendor charge (`keyof VendorCharge`). -/
inductive ChargeField
  | vendor_id
  | item_name
  | qty
  | unit_price
  | amount
  | remark
  | charge_type
  | is_active
deriving DecidableEq

/-- The spread `{ ...editingCharge, [field]: value }` of
`handleChargeChange` (src/unnamed/part_005, lines 799-810). The numeric
fields receive the caller's `Number(e.target.value)` with no `|| 0`
coercion, so a `NaN` would be stored as-is. -/
def setChargeField (c : VendorCharge) (field : ChargeField) (value : JSValue) :
    VendorCharge :=
  match field with
  | .vendor_id => { c with vendor_id := value.asString }
  | .item_name => { c with item_name := value.asString }
  | .qty => { c with qty := value.asNumber }
  | .unit_price => { c with unit_price := value.asNumber }
  | .amount => { c with amount := value.asNumber }
  | .remark => { c with remark := value.asString }
  | .charge_type => { c with charge_type := value.asString }
  | .is_active => { c with is_active := value.asBool }

/-- `handleChargeChange`: assign the field; when `qty` or `unit_price`
changed, recompute `updated.amount = Number(updated.qty) *
Number(updated.unit_price)` (`Number` on a number is the identity). -/
def handleChargeChange (c : VendorCharge) (field : ChargeField) (value : JSValue) :
    VendorCharge :=
  let u := setChargeField c field value
  match field with
  | .qty => { u with amount := jsMul u.qty u.unit_price }
  | .unit_price => { u with amount := jsMul u.qty u.unit_price }
  | _ => u

/-! ## Edit sequences over the item editor -/

/-- One user interaction with the item editor. -/
inductive EditOp
  | change (i : Nat) (f : ItemField) (v : JSValue)
  | add
  | remove (i : Nat)

/-- Apply one editor interaction. -/
def applyEditOp (items : List EditItem) : EditOp → List EditItem
  | .change i f v => handleItemChange items i f v
  | .add => handleAddItem items
  | .remove i => handleRemoveItem items i

/-- Apply a sequence of editor interactions, oldest first. -/
def applyEditOps (items : List EditItem) : List EditOp → List EditItem
  | [] => items
  | op :: ops => applyEditOps (applyEditOp items op) ops

/-! ## The item editor over the full JavaScript number domain

`JSNum` identifies all non-finite values in one `NaN` point; that is
adequate for the assignment identities (which fields an edit writes),
but not for finiteness questions: in JavaScript `Number("1e999")` is
`Infinity`, which is truthy, so `Number(value) || 0` stores it as-is,
and `Infinity * 0` is `NaN`. The editor is therefore embedded a second
time over `JSN`, which distinguishes `NaN`, `Infinity` and `-Infinity`
from the finite values (still abstracted as integers). -/

/-- A JavaScript number with its special values: `nan`, the two
infinities (reachable in the editor from overflowing literals such as
`1e999`), or a finite value. -/
inductive JSN
  | nan
  | posInf
  | negInf
  | num (n : ℤ)
deriving DecidableEq

/-- JS truthiness of a number: `NaN` and `±0` are falsy, everything else
(including the infinities) truthy. -/
def jsTruthy : JSN → Bool
  | .nan => false
  | .posInf => true
  | .negInf => true
  | .num n => if n = 0 then false else true

/-- The JS expression `x || 0` on a number `x`: `x` when truthy,
otherwise `0`. It never yields `NaN`, but it keeps `±Infinity`. -/
def jsOrZeroJS (x : JSN) : JSN :=
  if jsTruthy x then x else JSN.num 0

/-- JS multiplication: `NaN` propagates, `±Infinity * 0 = NaN`,
`±Infinity` times a nonzero value is an infinity of the product sign. -/
def jsMulJS : JSN → JSN → JSN
  | .nan, _ => .nan
  | _, .nan => .nan
  | .num a, .num b => .num (a * b)
  | .posInf, .num b => if b = 0 then .nan else if 0 < b then .posInf else .negInf
  | .negInf, .num b => if b = 0 then .nan else if 0 < b then .negInf else .posInf
  | .num a, .posInf => if a = 0 then .nan else if 0 < a then .posInf else .negInf
  | .num a, .negInf => if a = 0 then .nan else if 0 < a then .negInf else .posInf
  | .posInf, .posInf => .posInf
  | .posInf, .negInf => .negInf
  | .negInf, .posInf => .negInf
  | .negInf, .negInf => .posInf

/-- JS addition: `NaN` propagates, opposite infinities give `NaN`,
otherwise an infinity absorbs. -/
def jsAddJS : JSN → JSN → JSN
  | .nan, _ => .nan
  | _, .nan => .nan
  | .num a, .num b => .num (a + b)
  | .posInf, .negInf => .nan
  | .negInf, .posInf => .nan
  | .posInf, _ => .posInf
  | _, .posInf => .posInf
  | .negInf, _ => .negInf
  | _, .negInf => .negInf

/-- The finite value of a JS number, 0 for the special values. -/
def finValJS : JSN → ℤ
  | .num n => n
  | _ => 0

/-- `true` exactly on finite values. -/
def isFiniteJS : JSN → Bool
  | .num _ => true
  | _ => false

/-- A DOM input value with its full JS `Number` coercion (which can be
`NaN` for non-numeric text or `±Infinity` for overflowing literals) and
its `String` coercion. -/
structure JSInput where
  numberValue : JSN
  stringValue : String
deriving DecidableEq

/-- An invoice item of the editor over the full number domain. -/
structure EditItemJS where
  label : String
  quantity : JSN
  unitPrice : JSN
  amount : JSN
  remark : String
deriving DecidableEq

/-- Field assignment of `handleItemChange` over the full domain: numeric
fields receive `Number(value) || 0`, string fields `String(value)`. -/
def setItemFieldJS (it : EditItemJS) (field : ItemField) (value : JSInput) :
    EditItemJS :=
  match field with
  | .label => { it with label := value.stringValue }
  | .quantity => { it with quantity := jsOrZeroJS value.numberValue }
  | .unitPrice => { it with unitPrice := jsOrZeroJS value.numberValue }
  | .amount => { it with amount := jsOrZeroJS value.numberValue }
  | .remark => { it with remark := value.stringValue }

/-- Per-item effect of `handleItemChange` over the full domain: assign,
then recompute 금액 = 수량 * 단가 when 수량 or 단가 changed. -/
def applyItemChangeJS (it : EditItemJS) (field : ItemField) (value : JSInput) :
    EditItemJS :=
  let u := setItemFieldJS it field value
  match field with
  | .quantity => { u with amount := jsMulJS u.quantity u.unitPrice }
  | .unitPrice => { u with amount := jsMulJS u.quantity u.unitPrice }
  | _ => u

/-- `handleItemChange` over the full domain. -/
def handleItemChangeJS : List EditItemJS → Nat → ItemField → JSInput → List EditItemJS
  | [], _, _, _ => []
  | it :: rest, 0, field, value => applyItemChangeJS it field value :: rest
  | it :: rest, Nat.succ n, field, value => it :: handleItemChangeJS rest n field value

/-- `handleAddItem` over the full domain. -/
def handleAddItemJS (items : List EditItemJS) : List EditItemJS :=
  items ++ [{ label := "", quantity := JSN.num 0, unitPrice := JSN.num 0,
              amount := JSN.num 0, remark := "" }]

/-- `handleRemoveItem` over the full domain. -/
def handleRemoveItemJS : List EditItemJS → Nat → List EditItemJS
  | [], _ => []
  | _ :: rest, 0 => rest
  | it :: rest, Nat.succ n => it :: handleRemoveItemJS rest n

/-- `editTotalAmount` over the full domain:
`reduce((sum, item) => sum + (item.금액 || 0), 0)`. -/
def editTotalAmountJS (items : List EditItemJS) : JSN :=
  items.foldl (fun sum item => jsAddJS sum (jsOrZeroJS item.amount)) (JSN.num 0)

/-- One editor interaction over the full domain. -/
inductive EditOpJS
  | change (i : Nat) (f : ItemField) (v : JSInput)
  | add
  | remove (i : Nat)

/-- Apply one editor interaction over the full domain. -/
def applyEditOpJS (items : List EditItemJS) : EditOpJS → List EditItemJS
  | .change i f v => handleItemChangeJS items i f v
  | .add => handleAddItemJS items
  | .remove i => handleRemoveItemJS items i

/-- Apply an interaction sequence over the full domain, oldest first. -/
def applyEditOpsJS (items : List EditItemJS) : List EditOpJS → List EditItemJS
  | [] => items
  | op :: ops => applyEditOpsJS (applyEditOpJS items op) ops

/-- All numeric fields of an item are finite numbers. -/
def FiniteItemJS (it : EditItemJS) : Prop :=
  isFiniteJS it.quantity = true ∧ isFiniteJS it.unitPrice = true ∧
    isFiniteJS it.amount = true

instance (it : EditItemJS) : Decidable (FiniteItemJS it) := by
  unfold FiniteItemJS
  infer_instance

/-- A numeric input that does not overflow: its `Number` coercion is
finite or `NaN`, not `±Infinity`. -/
def GoodInput (v : JSInput) : Prop :=
  v.numberValue ≠ JSN.posInf ∧ v.numberValue ≠ JSN.negInf

instance (v : JSInput) : Decidable (GoodInput v) := by
  unfold GoodInput
  infer_instance

/-- An interaction whose numeric input (if any) does not overflow. -/
def GoodOp : EditOpJS → Prop
  | .change _ _ v => GoodInput v
  | .add => True
  | .remove _ => True

instance (op : EditOpJS) : Decidable (GoodOp op) := by
  cases op <;> (unfold GoodOp; infer_instance)

/-- The concrete batch of the spec's isolation example: vendors
`[A, B, C]` where `B` does not exist (its calculate call fails with a
vendor-not-found error) and the others compute 20000. -/
def calcExampleB : String → Except String ℤ :=
  fun v => if v = "B" then Except.error "공급처 없음" else Except.ok 20000

/-! ## Vendor Identity Registry (spec §4.1)

The FastAPI backend (`backend/app`) that enforces alias assignment is not
part of the source tree here — only its HTTP callers
(`src/frontend/src/lib/api.ts` `getAvailableAliases`/`saveVendor`, and the
mapping page's `getAliasOptionsForType`) are. The registry is therefore
modelled from the spec. -/

/-- The five upload source types (spec §3, api.ts alias list names). -/
inductive SourceType
  | inbound_slip
  | shipping_stats
  | kpost_in
  | kpost_ret
  | work_log
deriving DecidableEq

/-- Per-vendor alias sets, one entry per `(sourceType, alias)` pair. -/
structure VendorAliases where
  vendorId : String
  aliases : List (SourceType × String)
deriving DecidableEq

/-- The registry state: all vendors' alias sets. -/
abbrev Registry : Type := List VendorAliases

/-- Error of the mutating alias-assignment operation (spec §7). -/
inductive AliasError
  | aliasConflict
deriving DecidableEq

/-- Modelled from the spec: `resolveAliases(sourceType, vendorId)` — every
raw alias registered for that vendor under that source type (§4.1). -/
def resolveAliases (r : Registry) (sourceType : SourceType) (vendorId : String) :
    List String :=
  (r.filter (fun v => v.vendorId = vendorId)).flatMap
    (fun v => (v.aliases.filter (fun p => p.1 = sourceType)).map (fun p => p.2))

/-- The vendor currently owning `(sourceType, alias)`, if any. -/
def ownerOf : Registry → SourceType → String → Option String
  | [], _, _ => none
  | v :: rest, st, a =>
      if (st, a) ∈ v.aliases then some v.vendorId else ownerOf rest st a

/-- Modelled from the spec: `assignAlias(vendorId, sourceType, alias)` —
mutates the set; must reject an alias already owned by a different vendor
for the same source type with `AliasConflict`, leaving the registry
unchanged (§4.1, §8). Returns the (possibly unchanged) registry and the
error, if any; re-assigning an alias the vendor already owns is a no-op. -/
def assignAlias (r : Registry) (vendorId : String) (sourceType : SourceType)
    (aliasName : String) : Registry × Option AliasError :=
  match ownerOf r sourceType aliasName with
  | some w =>
      if w = vendorId then (r, none) else (r, some AliasError.aliasConflict)
  | none =>
      (r.map (fun v =>
        if v.vendorId = vendorId then
          { v with aliases := (sourceType, aliasName) :: v.aliases }
        else v), none)

/-- The alias partition invariant (spec §4.1): for any source type, no
two vendors share an alias. -/
def Partitioned (r : Registry) : Prop :=
  ∀ v₁ ∈ r, ∀ v₂ ∈ r, ∀ p ∈ v₁.aliases, p ∈ v₂.aliases → v₁.vendorId = v₂.vendorId

instance (r : Registry) : Decidable (Partitioned r) := by
  unfold Partitioned
  infer_instance

/-! ## Rate Table Store and Source Data Accessor (spec §4.2, §4.3)

Modelled from the spec; the backend implementing them is not in the
source tree (only the HTTP client `api.ts` declaring the row shapes —
e.g. interface `ShippingZoneRate` with fields 요금제/구간/len_min_cm/
len_max_cm/요금 — is). -/

/-- A courier zone band row (api.ts interface `ShippingZoneRate`):
요금제 = rate plan, 구간 = zone label, 요금 = price. -/
structure ShippingZoneRate where
  ratePlan : String
  zoneLabel : String
  len_min_cm : ℤ
  len_max_cm : ℤ
  price : ℤ
deriving DecidableEq

/-- The band of the given rate plan whose half-open interval
`[len_min_cm, len_max_cm)` contains `lengthCm`, scanning the table in
order. -/
def findZone : List ShippingZoneRate → String → ℤ → Option ShippingZoneRate
  | [], _, _ => none
  | b :: rest, plan, lengthCm =>
      if b.ratePlan = plan ∧ b.len_min_cm ≤ lengthCm ∧ lengthCm < b.len_max_cm then
        some b
      else findZone rest plan lengthCm

/-- Modelled from the spec: `shippingZonePrice(ratePlan, lengthCm)` —
the price of the band whose `[min, max)` contains `lengthCm`, failing
with `RateNotFound` when no band covers the value (§4.2). -/
def shippingZonePrice (rates : List ShippingZoneRate) (ratePlan : String)
    (lengthCm : ℤ) : Except String ℤ :=
  match findZone rates ratePlan lengthCm with
  | some b => Except.ok b.price
  | none => Except.error "RateNotFound"

/-- Modelled from the spec: `outboundBasicPrice(skuBand)` — `none` when
the band is absent (the engine turns that into a warning). -/
def outboundBasicPrice (rates : List (String × ℤ)) (skuBand : String) : Option ℤ :=
  match rates with
  | [] => none
  | p :: rest => if p.1 = skuBand then some p.2 else outboundBasicPrice rest skuBand

/-- Modelled from the spec: `outboundExtraPrice(itemName)` — absent means
"not applicable" (§4.2). -/
def outboundExtraPrice (rates : List (String × ℤ)) (itemName : String) : Option ℤ :=
  match rates with
  | [] => none
  | p :: rest => if p.1 = itemName then some p.2 else outboundExtraPrice rest itemName

/-! ## Invoice Computation Engine (spec §4.4)

Modelled from the spec: the backend implementing `calculateInvoice`
(`POST /calculate` of `backend/app`) is not in the source tree; only its
HTTP client (`calculateInvoice` in `src/frontend/src/lib/api.ts`, lines
60-88, fixing the request options and the response shape) is. Stages
follow spec §4.4 steps 1-8; each stage is independent, contributing items
and warnings, and only `VendorNotFound` aborts. -/

/-- A canonical vendor record (spec §3). -/
structure Vendor where
  vendorId : String
  rateType : String
  skuBand : String
  active : Bool
deriving DecidableEq

/-- One response item `(항목, 수량, 단가, 금액, 비고)` (spec §6). -/
structure Item where
  label : String
  quantity : ℤ
  unitPrice : ℤ
  amount : ℤ
  remark : String
deriving DecidableEq

/-- An inbound-slip row: alias as appearing in the file, date, shipped
units (spec §3 SourceRow). Dates are day numbers. -/
structure InboundRow where
  vendorAliasRaw : String
  date : ℤ
  quantity : ℤ
deriving DecidableEq

/-- A shipping-stats row: package length in cm and a remote-area flag. -/
structure ShippingRow where
  vendorAliasRaw : String
  date : ℤ
  lengthCm : ℤ
  isRemote : Bool
deriving DecidableEq

/-- A postal (우체국 접수/반품) row with its work-category field. -/
structure PostalRow where
  vendorAliasRaw : String
  date : ℤ
  category : String
deriving DecidableEq

/-- A work-log row; it already carries unit price, quantity and computed
amount (spec §4.4 step 6). -/
structure WorkLogRow where
  vendorAliasRaw : String
  date : ℤ
  category : String
  unitPrice : ℤ
  quantity : ℤ
  amount : ℤ
deriving DecidableEq

/-- A vendor-specific recurring/ad-hoc charge or storage-fee line
(spec §3 MaterialRate / VendorCharge / StorageRate). -/
structure ChargeLine where
  itemName : String
  qty : ℤ
  unitPrice : ℤ
  amount : ℤ
  isActive : Bool
deriving DecidableEq

/-- The persisted state the engine reads (vendor table, registry, the
four rate tables, the five source-row tables) plus state components the
engine does not read (activity log, company settings) — carried to state
that the computation depends only on the billing-relevant projection. -/
structure EngineState where
  vendors : List Vendor
  registry : Registry
  outBasicRates : List (String × ℤ)
  outExtraRates : List (String × ℤ)
  shippingZoneRates : List ShippingZoneRate
  remoteFeePerUnit : ℤ
  vendorChargesTable : List (String × ChargeLine)
  storageFeesTable : List (String × ChargeLine)
  inboundRows : List InboundRow
  shippingRows : List ShippingRow
  kpostInRows : List PostalRow
  kpostRetRows : List PostalRow
  workLogRows : List WorkLogRow
  activityLog : List String
  companyInfo : String

/-- The recognized option flags, all defaulting to true (spec §4.4). -/
structure CalcOptions where
  include_basic_shipping : Bool := true
  include_courier_fee : Bool := true
  include_inbound_fee : Bool := true
  include_remote_fee : Bool := true
  include_worklog : Bool := true
deriving DecidableEq

/-- The calculation response (spec §6): items plus total and warnings. -/
structure CalcResult where
  vendor : String
  date_from : ℤ
  date_to : ℤ
  items : List Item
  total_amount : ℤ
  warnings : List String
deriving DecidableEq

/-- Row filter of the Source Data Accessor (spec §4.3): the row's raw
alias is one of the vendor's aliases for that source and its date lies in
the inclusive range. -/
def rowMatches (aliases : List String) (dateFrom dateTo : ℤ)
    (rawAlias : String) (date : ℤ) : Bool :=
  decide (rawAlias ∈ aliases) && decide (dateFrom ≤ date) && decide (date ≤ dateTo)

/-- Stage 2, basic outbound fee (기본 출고비): sum the shipped units of
the matching inbound rows and price them by the vendor's SKU band; a
missing band rate or an empty source becomes a warning. -/
def basicStage (st : EngineState) (v : Vendor) (dateFrom dateTo : ℤ) :
    List Item × List String :=
  let aliases := resolveAliases st.registry SourceType.inbound_slip v.vendorId
  let rows := st.inboundRows.filter
    (fun row => rowMatches aliases dateFrom dateTo row.vendorAliasRaw row.date)
  if rows.isEmpty then
    ([], ["기본 출고비: 기간 내 출고 데이터 없음"])
  else
    match outboundBasicPrice st.outBasicRates v.skuBand with
    | some p =>
        let totalUnits := (rows.map (fun row => row.quantity)).sum
        ([{ label := "기본 출고비", quantity := totalUnits, unitPrice := p,
            amount := totalUnits * p, remark := "" }], [])
    | none => ([], ["기본 출고비: SKU 구간 요금 없음"])

/-- Stage 3, courier fee: classify each matching shipping-stats row into
the zone band containing its length; one item per zone in rate-table
order with the zone's count and price; rows matching no band feed the
unmatched-zone warning. -/
def courierStage (st : EngineState) (v : Vendor) (dateFrom dateTo : ℤ) :
    List Item × List String :=
  let aliases := resolveAliases st.registry SourceType.shipping_stats v.vendorId
  let rows := st.shippingRows.filter
    (fun row => rowMatches aliases dateFrom dateTo row.vendorAliasRaw row.date)
  let zoneItems := (st.shippingZoneRates.filter
      (fun b => b.ratePlan = v.rateType)).filterMap
    (fun b =>
      let count := (rows.filter
        (fun row => findZone st.shippingZoneRates v.rateType row.lengthCm = some b)).length
      if count = 0 then none
      else some { label := b.zoneLabel, quantity := (count : ℤ), unitPrice := b.price,
                  amount := (count : ℤ) * b.price, remark := "" })
  let unmatched := (rows.filter
    (fun row => findZone st.shippingZoneRates v.rateType row.lengthCm = none)).length
  (zoneItems, if unmatched = 0 then [] else ["택배요금: 구간 미일치 " ++ toString unmatched ++ "건"])

/-- Stage 4, inbound/receiving fee: for each matching postal row, apply
`outboundExtraPrice` to its category; rows with no matching rate are
skipped and counted into a warning. -/
def inboundFeeStage (st : EngineState) (v : Vendor) (dateFrom dateTo : ℤ) :
    List Item × List String :=
  let aliasesIn := resolveAliases st.registry SourceType.kpost_in v.vendorId
  let aliasesRet := resolveAliases st.registry SourceType.kpost_ret v.vendorId
  let rows :=
    st.kpostInRows.filter
      (fun row => rowMatches aliasesIn dateFrom dateTo row.vendorAliasRaw row.date) ++
    st.kpostRetRows.filter
      (fun row => rowMatches aliasesRet dateFrom dateTo row.vendorAliasRaw row.date)
  let priced := rows.filterMap
    (fun row => (outboundExtraPrice st.outExtraRates row.category).map
      (fun p => ({ label := row.category, quantity := 1, unitPrice := p,
                   amount := p, remark := "" } : Item)))
  let skipped := (rows.filter
    (fun row => outboundExtraPrice st.outExtraRates row.category = none)).length
  (priced, if skipped = 0 then [] else ["입고검수: 단가 없는 작업 " ++ toString skipped ++ "건 제외"])

/-- Stage 5, remote/island surcharge (도서산간): matching shipping rows
flagged remote, priced per unit by the configured surcharge. -/
def remoteStage (st : EngineState) (v : Vendor) (dateFrom dateTo : ℤ) :
    List Item × List String :=
  let aliases := resolveAliases st.registry SourceType.shipping_stats v.vendorId
  let rows := st.shippingRows.filter
    (fun row => rowMatches aliases dateFrom dateTo row.vendorAliasRaw row.date)
  let count := (rows.filter (fun row => row.isRemote)).length
  if count = 0 then ([], [])
  else ([{ label := "도서산간 추가요금", quantity := (count : ℤ),
           unitPrice := st.remoteFeePerUnit,
           amount := (count : ℤ) * st.remoteFeePerUnit, remark := "" }], [])

/-- Stage 6, work-log fee: matching work-log rows pass through as
individual items carrying their own unit price, quantity and amount
(per-row granularity, one of the two defensible choices the spec leaves
open). -/
def workLogStage (st : EngineState) (v : Vendor) (dateFrom dateTo : ℤ) :
    List Item × List String :=
  let aliases := resolveAliases st.registry SourceType.work_log v.vendorId
  let rows := st.workLogRows.filter
    (fun row => rowMatches aliases dateFrom dateTo row.vendorAliasRaw row.date)
  (rows.map (fun row =>
    { label := row.category, quantity := row.quantity, unitPrice := row.unitPrice,
      amount := row.amount, remark := "작업일지" }), [])

/-- Stage 7, vendor ad-hoc/recurring charges and storage fees: active
lines for the vendor, appended unconditionally (not gated by the
`include*` flags). -/
def chargesStage (st : EngineState) (v : Vendor) : List Item × List String :=
  let lines :=
    (st.vendorChargesTable.filter (fun c => c.1 = v.vendorId && c.2.isActive)).map
      (fun c => c.2) ++
    (st.storageFeesTable.filter (fun c => c.1 = v.vendorId && c.2.isActive)).map
      (fun c => c.2)
  (lines.map (fun c =>
    { label := c.itemName, quantity := c.qty, unitPrice := c.unitPrice,
      amount := c.amount, remark := "" }), [])

/-- A stage gated by its option flag contributes nothing when disabled. -/
def gated (flag : Bool) (stage : List Item × List String) : List Item × List String :=
  if flag then stage else ([], [])

/-- The engine body once the vendor is resolved: stages 2-7 in order,
then assembly with `totalAmount = sum(item.amount)` (spec §4.4 step 8). -/
def assembleInvoice (st : EngineState) (v : Vendor) (dateFrom dateTo : ℤ)
    (opts : CalcOptions) : CalcResult :=
  let s2 := gated opts.include_basic_shipping (basicStage st v dateFrom dateTo)
  let s3 := gated opts.include_courier_fee (courierStage st v dateFrom dateTo)
  let s4 := gated opts.include_inbound_fee (inboundFeeStage st v dateFrom dateTo)
  let s5 := gated opts.include_remote_fee (remoteStage st v dateFrom dateTo)
  let s6 := gated opts.include_worklog (workLogStage st v dateFrom dateTo)
  let s7 := chargesStage st v
  let items := s2.1 ++ s3.1 ++ s4.1 ++ s5.1 ++ s6.1 ++ s7.1
  { vendor := v.vendorId, date_from := dateFrom, date_to := dateTo,
    items := items,
    total_amount := (items.map (fun it => it.amount)).sum,
    warnings := s2.2 ++ s3.2 ++ s4.2 ++ s5.2 ++ s6.2 ++ s7.2 }

/-- Modelled from the spec: `calculateInvoice(vendorId, dateFrom, dateTo,
options)` — resolve the vendor (the one fatal precondition,
`VendorNotFound`), then run the independent stages and assemble
(spec §4.4). A pure function of its inputs and the current rate/source
state. -/
def calculateInvoice (st : EngineState) (vendorId : String)
    (dateFrom dateTo : ℤ) (opts : CalcOptions) : Except String CalcResult :=
  match st.vendors.find? (fun v => v.vendorId == vendorId) with
  | none => Except.error "VendorNotFound"
  | some v => Except.ok (assembleInvoice st v dateFrom dateTo opts)

/-! ## Invoice persistence: item edit (spec §4.5) -/

/-- A persisted invoice (spec §3). -/
structure StoredInvoice where
  invoice_id : ℤ
  vendor_id : String
  period_from : String
  period_to : String
  items : List Item
  total_amount : ℤ
  status : String
  modified_by : Option String
deriving DecidableEq

/-- Modelled from the spec: the PUT `/invoices/{id}/items` handler
(`editItems(newItems)`, spec §4.5; the backend is not in the source
tree) — every edit recomputes `totalAmount` from the submitted item list
and stamps the modifier. -/
def editItems (inv : StoredInvoice) (newItems : List Item)
    (modifier : String) : StoredInvoice :=
  { inv with items := newItems,
             total_amount := (newItems.map (fun it => it.amount)).sum,
             modified_by := some modifier }

/-! ## Example data for the concrete witnesses -/

/-- The spec's example zone band `shippingZoneRate(A, "2구간", 30, 40, 3000)`. -/
def exampleBand : ShippingZoneRate :=
  { ratePlan := "A", zoneLabel := "2구간", len_min_cm := 30, len_max_cm := 40,
    price := 3000 }

/-- Example state for the spec's courier-fee scenario: vendor `V1` with
`rateType = A`, one shipping-stats row of length 35cm in range, and the
single band `exampleBand`. -/
def c7State : EngineState :=
  { vendors := [{ vendorId := "V1", rateType := "A", skuBand := "b100", active := true }],
    registry := [{ vendorId := "V1",
                   aliases := [(SourceType.shipping_stats, "브이원상사")] }],
    outBasicRates := [], outExtraRates := [],
    shippingZoneRates := [exampleBand],
    remoteFeePerUnit := 0,
    vendorChargesTable := [], storageFeesTable := [],
    inboundRows := [],
    shippingRows := [{ vendorAliasRaw := "브이원상사", date := 15, lengthCm := 35,
                       isRemote := false }],
    kpostInRows := [], kpostRetRows := [], workLogRows := [],
    activityLog := [], companyInfo := "" }

/-- Options enabling only the courier-fee stage. -/
def c7Opts : CalcOptions :=
  { include_basic_shipping := false, include_courier_fee := true,
    include_inbound_fee := false, include_remote_fee := false,
    include_worklog := false }

/-- The expected result of the courier-fee scenario: one item
`(수량 1, 단가 3000, 금액 3000)` under zone label `2구간`. -/
def c7Result : CalcResult :=
  { vendor := "V1", date_from := 0, date_to := 31,
    items := [{ label := "2구간", quantity := 1, unitPrice := 3000,
                amount := 3000, remark := "" }],
    total_amount := 3000, warnings := [] }

/-- Example state with vendor `V1` and no source data. -/
def c8StateA : EngineState :=
  { vendors := [{ vendorId := "V1", rateType := "A", skuBand := "b100", active := true }],
    registry := [], outBasicRates := [], outExtraRates := [],
    shippingZoneRates := [], remoteFeePerUnit := 0,
    vendorChargesTable := [], storageFeesTable := [],
    inboundRows := [], shippingRows := [], kpostInRows := [],
    kpostRetRows := [], workLogRows := [],
    activityLog := [], companyInfo := "" }

/-- Same billing state as `c8StateA`, different activity log and company
settings (state the engine does not read). -/
def c8StateB : EngineState :=
  { c8StateA with activityLog := ["로그인", "업로드"], companyInfo := "주식회사" }

/-- The zone bands of one rate plan pairwise do not overlap (spec §3:
contiguous and non-overlapping per rate plan): two bands of the plan
whose half-open intervals share a point are the same band. -/
def ZonesDisjoint (rates : List ShippingZoneRate) (plan : String) : Prop :=
  ∀ b₁ ∈ rates, ∀ b₂ ∈ rates, b₁.ratePlan = plan → b₂.ratePlan = plan →
    b₁.len_min_cm < b₂.len_max_cm → b₂.len_min_cm < b₁.len_max_cm → b₁ = b₂

instance (rates : List ShippingZoneRate) (plan : String) :
    Decidable (ZonesDisjoint rates plan) := by
  unfold ZonesDisjoint
  infer_instance

theorem editTotalAmount_eq_sumAmounts (items : List EditItem) :
    editTotalAmount items = sumAmounts items := by
  have h : ∀ (l : List EditItem) (a : ℤ),
      l.foldl (fun sum item => sum + jsOrZero item.amount) a
        = a + (l.map (fun item => jsOrZero item.amount)).sum := by
    intro l
    induction l with
    | nil => intro a; simp
    | cons x xs ih =>
      intro a
      simp only [List.foldl_cons, List.map_cons, List.sum_cons, ih]
      ring
  simpa [editTotalAmount, sumAmounts] using h items 0

/-! ## Helper lemmas -/

theorem jsOrZeroJS_ne_nan : ∀ x : JSN, jsOrZeroJS x ≠ JSN.nan := by
  intro x
  cases x with
  | nan => simp [jsOrZeroJS, jsTruthy]
  | posInf => simp [jsOrZeroJS, jsTruthy]
  | negInf => simp [jsOrZeroJS, jsTruthy]
  | num n => by_cases h : n = 0 <;> simp [jsOrZeroJS, jsTruthy, h]

theorem jsOrZeroJS_num (m : ℤ) : jsOrZeroJS (JSN.num m) = JSN.num m := by
  by_cases h : m = 0 <;> simp [jsOrZeroJS, jsTruthy, h]

theorem jsOrZeroJS_finite_of_good {x : JSN} (h1 : x ≠ JSN.posInf)
    (h2 : x ≠ JSN.negInf) : isFiniteJS (jsOrZeroJS x) = true := by
  cases x with
  | nan => rfl
  | posInf => exact absurd rfl h1
  | negInf => exact absurd rfl h2
  | num n => rw [jsOrZeroJS_num]; rfl

theorem jsMulJS_finite {a b : JSN} (ha : isFiniteJS a = true)
    (hb : isFiniteJS b = true) : isFiniteJS (jsMulJS a b) = true := by
  cases a with
  | num x =>
    cases b with
    | num y => rfl
    | nan => exact absurd hb (by simp [isFiniteJS])
    | posInf => exact absurd hb (by simp [isFiniteJS])
    | negInf => exact absurd hb (by simp [isFiniteJS])
  | nan => exact absurd ha (by simp [isFiniteJS])
  | posInf => exact absurd ha (by simp [isFiniteJS])
  | negInf => exact absurd ha (by simp [isFiniteJS])

theorem applyItemChangeJS_finite (it : EditItemJS) (f : ItemField) (v : JSInput)
    (hit : FiniteItemJS it) (hv : GoodInput v) :
    FiniteItemJS (applyItemChangeJS it f v) := by
  obtain ⟨hq, hp, ha⟩ := hit
  obtain ⟨h1, h2⟩ := hv
  have hfin := jsOrZeroJS_finite_of_good h1 h2
  cases f with
  | label => exact ⟨hq, hp, ha⟩
  | remark => exact ⟨hq, hp, ha⟩
  | amount => exact ⟨hq, hp, hfin⟩
  | quantity => exact ⟨hfin, hp, jsMulJS_finite hfin hp⟩
  | unitPrice => exact ⟨hq, hfin, jsMulJS_finite hq hfin⟩

theorem handleItemChangeJS_finite (items : List EditItemJS) (i : Nat)
    (f : ItemField) (v : JSInput) (hv : GoodInput v)
    (h : ∀ it ∈ items, FiniteItemJS it) :
    ∀ it ∈ handleItemChangeJS items i f v, FiniteItemJS it := by
  induction items generalizing i with
  | nil => simp [handleItemChangeJS]
  | cons x xs ih =>
    cases i with
    | zero =>
      intro it hit
      rcases List.mem_cons.mp hit with h0 | hrest
      · subst h0
        exact applyItemChangeJS_finite x f v (h x (by simp)) ⟨hv.1, hv.2⟩
      · exact h it (by simp [hrest])
    | succ n =>
      intro it hit
      rcases List.mem_cons.mp hit with h0 | hrest
      · subst h0
        exact h it (by simp)
      · exact ih n (fun a ha => h a (by simp [ha])) it hrest

theorem handleRemoveItemJS_subset (items : List EditItemJS) (i : Nat) :
    ∀ it ∈ handleRemoveItemJS items i, it ∈ items := by
  induction items generalizing i with
  | nil => simp [handleRemoveItemJS]
  | cons x xs ih =>
    cases i with
    | zero => intro it hit; exact List.mem_cons_of_mem x hit
    | succ n =>
      intro it hit
      rcases List.mem_cons.mp hit with h0 | hrest
      · simp [h0]
      · exact List.mem_cons_of_mem x (ih n it hrest)

theorem applyEditOpJS_finite (items : List EditItemJS) (op : EditOpJS)
    (h : ∀ it ∈ items, FiniteItemJS it) (hop : GoodOp op) :
    ∀ it ∈ applyEditOpJS items op, FiniteItemJS it := by
  cases op with
  | change i f v => exact handleItemChangeJS_finite items i f v hop h
  | add =>
    intro it hit
    rcases List.mem_append.mp hit with hl | hr
    · exact h it hl
    · simp only [List.mem_singleton] at hr
      subst hr
      exact ⟨rfl, rfl, rfl⟩
  | remove i =>
    intro it hit
    exact h it (handleRemoveItemJS_subset items i it hit)

theorem applyEditOpsJS_finite (ops : List EditOpJS) :
    ∀ (items : List EditItemJS), (∀ it ∈ items, FiniteItemJS it) →
      (∀ op ∈ ops, GoodOp op) →
      ∀ it ∈ applyEditOpsJS items ops, FiniteItemJS it := by
  induction ops with
  | nil => intro items h _; simpa [applyEditOpsJS] using h
  | cons op ops ih =>
    intro items h hops
    exact ih (applyEditOpJS items op)
      (applyEditOpJS_finite items op h (hops op (by simp)))
      (fun o ho => hops o (by simp [ho]))

theorem editTotalAmountJS_finite (items : List EditItemJS)
    (h : ∀ it ∈ items, FiniteItemJS it) :
    editTotalAmountJS items
      = JSN.num ((items.map (fun it => finValJS it.amount)).sum) := by
  have key : ∀ (l : List EditItemJS) (a : ℤ), (∀ it ∈ l, FiniteItemJS it) →
      l.foldl (fun sum item => jsAddJS sum (jsOrZeroJS item.amount)) (JSN.num a)
        = JSN.num (a + (l.map (fun it => finValJS it.amount)).sum) := by
    intro l
    induction l with
    | nil => intro a _; simp
    | cons x xs ih =>
      intro a hl
      have hax := (hl x (by simp)).2.2
      cases hx : x.amount with
      | nan => rw [hx] at hax; exact absurd hax (by simp [isFiniteJS])
      | posInf => rw [hx] at hax; exact absurd hax (by simp [isFiniteJS])
      | negInf => rw [hx] at hax; exact absurd hax (by simp [isFiniteJS])
      | num m =>
        have hstep : jsAddJS (JSN.num a) (jsOrZeroJS (JSN.num m))
            = JSN.num (a + m) := by
          rw [jsOrZeroJS_num]
          rfl
        simp only [List.foldl_cons, hx, hstep]
        rw [ih (a + m) (fun it hit => hl it (by simp [hit]))]
        simp only [List.map_cons, List.sum_cons, hx, finValJS]
        congr 1
        ring
  simpa [editTotalAmountJS] using key items 0 h

theorem handleItemChange_getElem (items : List EditItem) (i : Nat)
    (f : ItemField) (v : JSValue) :
    ∀ j : Nat, (handleItemChange items i f v)[j]?
      = if j = i then (items[j]?).map (fun it => applyItemChange it f v)
        else items[j]? := by
  induction items generalizing i with
  | nil => intro j; simp [handleItemChange]
  | cons x xs ih =>
    intro j
    cases i with
    | zero =>
      cases j with
      | zero => simp [handleItemChange]
      | succ m => simp [handleItemChange]
    | succ n =>
      cases j with
      | zero => simp [handleItemChange]
      | succ m =>
        simp only [handleItemChange, List.getElem?_cons_succ, ih n m]
        by_cases h : m = n <;> simp [h]

theorem runBatchFrom_false_getElem (calcInvoice : String → Except String ℤ)
    (elapsed : Nat → ℤ) (events : Nat → Bool) :
    ∀ (vendors : List String) (i : Nat) (rs : Bool) (j : Nat),
      (runBatchFrom calcInvoice elapsed false events i rs vendors)[j]?
        = (vendors[j]?).map (fun v => batchEntry calcInvoice elapsed (i + j) v) := by
  intro vendors
  induction vendors with
  | nil => intro i rs j; simp [runBatchFrom]
  | cons v rest ih =>
    intro i rs j
    cases j with
    | zero => simp [runBatchFrom]
    | succ m =>
      simp only [runBatchFrom, Bool.false_eq_true, if_false, List.getElem?_cons_succ,
        ih (i + 1) (rs || events i) m]
      have harith : i + 1 + m = i + (m + 1) := by omega
      rw [harith]

theorem runBatchFrom_false_length (calcInvoice : String → Except String ℤ)
    (elapsed : Nat → ℤ) (events : Nat → Bool) :
    ∀ (vendors : List String) (i : Nat) (rs : Bool),
      (runBatchFrom calcInvoice elapsed false events i rs vendors).length
        = vendors.length := by
  intro vendors
  induction vendors with
  | nil => intro i rs; simp [runBatchFrom]
  | cons v rest ih =>
    intro i rs
    simp [runBatchFrom, ih (i + 1) (rs || events i)]

theorem runBatchFrom_false_events_irrelevant
    (calcInvoice : String → Except String ℤ) (elapsed : Nat → ℤ)
    (ev1 ev2 : Nat → Bool) :
    ∀ (vendors : List String) (i : Nat) (rs1 rs2 : Bool),
      runBatchFrom calcInvoice elapsed false ev1 i rs1 vendors
        = runBatchFrom calcInvoice elapsed false ev2 i rs2 vendors := by
  intro vendors
  induction vendors with
  | nil => intro i rs1 rs2; rfl
  | cons v rest ih =>
    intro i rs1 rs2
    simp only [runBatchFrom, Bool.false_eq_true, if_false]
    exact congrArg _ (ih (i + 1) (rs1 || ev1 i) (rs2 || ev2 i))

theorem batchEntry_shape (calcInvoice : String → Except String ℤ)
    (elapsed : Nat → ℤ) (i : Nat) (v : String) :
    ((batchEntry calcInvoice elapsed i v).vendor = v) ∧
    ((batchEntry calcInvoice elapsed i v).duration = some (elapsed i)) ∧
    ((∃ amt, calcInvoice v = .ok amt ∧
        (batchEntry calcInvoice elapsed i v).status = BatchStatus.success ∧
        (batchEntry calcInvoice elapsed i v).message = successMessage amt) ∨
     (∃ e, calcInvoice v = .error e ∧
        (batchEntry calcInvoice elapsed i v).status = BatchStatus.error ∧
        (batchEntry calcInvoice elapsed i v).message = errorMessage e)) := by
  cases h : calcInvoice v with
  | ok amt => exact ⟨by simp [batchEntry, h], by simp [batchEntry, h],
      Or.inl ⟨amt, rfl, by simp [batchEntry, h], by simp [batchEntry, h]⟩⟩
  | error e => exact ⟨by simp [batchEntry, h], by simp [batchEntry, h],
      Or.inr ⟨e, rfl, by simp [batchEntry, h], by simp [batchEntry, h]⟩⟩

/-! ## Claim theorems for the frontend components -/

/-- Claim C1: batch invoice generation over the selected vendors is
sequential and independent per vendor. For every vendor list and every
outcome of the per-vendor `calculateInvoice` calls, the final batch log
has one row per selected vendor, in order; the row at position `i` is
determined solely by vendor `i`'s own call (so one vendor's failure —
e.g. `VendorNotFound` — yields a failure row for that vendor only and
every other vendor is still processed); and every row records
success/failure, a message, and the elapsed time of the call. -/
theorem batch_sequential_isolated (calcInvoice : String → Except String ℤ)
    (elapsed : Nat → ℤ) (events : Nat → Bool) (selectedVendors : List String) :
    (handleBatchCalculate calcInvoice elapsed false events selectedVendors).length
        = selectedVendors.length ∧
    (∀ i : Nat,
      (handleBatchCalculate calcInvoice elapsed false events selectedVendors)[i]?
        = (selectedVendors[i]?).map (fun v => batchEntry calcInvoice elapsed i v)) ∧
    (∀ l ∈ handleBatchCalculate calcInvoice elapsed false events selectedVendors,
      l.duration.isSome = true ∧
      ((∃ amt, calcInvoice l.vendor = .ok amt ∧ l.status = BatchStatus.success ∧
          l.message = successMessage amt) ∨
       (∃ e, calcInvoice l.vendor = .error e ∧ l.status = BatchStatus.error ∧
          l.message = errorMessage e))) := by
  refine ⟨runBatchFrom_false_length calcInvoice elapsed events selectedVendors 0 false,
    fun i => by
      simpa using runBatchFrom_false_getElem calcInvoice elapsed events
        selectedVendors 0 false i,
    fun l hl => ?_⟩
  rw [handleBatchCalculate] at hl
  obtain ⟨j, hj, hget⟩ := List.mem_iff_getElem.mp hl
  have hchar := runBatchFrom_false_getElem calcInvoice elapsed events
    selectedVendors 0 false j
  rw [List.getElem?_eq_getElem hj, hget] at hchar
  have hj' : j < selectedVendors.length := by
    have := runBatchFrom_false_length calcInvoice elapsed events selectedVendors 0 false
    omega
  rw [List.getElem?_eq_getElem hj'] at hchar
  simp only [Option.map_some', Option.some.injEq] at hchar
  obtain ⟨hv, hd, hshape⟩ := batchEntry_shape calcInvoice elapsed
    (0 + j) (selectedVendors[j])
  subst hchar
  rw [hv]
  refine ⟨by rw [hd]; rfl, ?_⟩
  rcases hshape with ⟨amt, hok, hst, hmsg⟩ | ⟨e, herr, hst, hmsg⟩
  · exact Or.inl ⟨amt, hok, hst, hmsg⟩
  · exact Or.inr ⟨e, herr, hst, hmsg⟩

/-- Witness for C1 at the spec's example: vendors `[A, B, C]` with `B`
missing. -/
theorem batch_sequential_isolated_witness :
    (handleBatchCalculate calcExampleB (fun _ => 1) false (fun _ => false)
        ["A", "B", "C"]).length = (["A", "B", "C"] : List String).length ∧
    (∀ i : Nat,
      (handleBatchCalculate calcExampleB (fun _ => 1) false (fun _ => false)
          ["A", "B", "C"])[i]?
        = ((["A", "B", "C"] : List String)[i]?).map
            (fun v => batchEntry calcExampleB (fun _ => 1) i v)) ∧
    (∀ l ∈ handleBatchCalculate calcExampleB (fun _ => 1) false (fun _ => false)
        ["A", "B", "C"],
      l.duration.isSome = true ∧
      ((∃ amt, calcExampleB l.vendor = .ok amt ∧ l.status = BatchStatus.success ∧
          l.message = successMessage amt) ∨
       (∃ e, calcExampleB l.vendor = .error e ∧ l.status = BatchStatus.error ∧
          l.message = errorMessage e))) :=
  batch_sequential_isolated calcExampleB (fun _ => 1) (fun _ => false) ["A", "B", "C"]

/-- Claim C2 (code bug): the cooperative stop signal is never observed.
The loop guard `if (stopRequested)` reads the `const` binding captured by
the running closure of `handleBatchCalculate`, which is `false` for a
batch started normally and which `setStopRequested(true)` (the stop
button, `handleStopBatch`) can never change mid-run — it only updates the
render state for the *next* render. Hence the batch output is independent
of when (or whether) stop is requested, and in the concrete run
`[A, B, C]` with stop requested right after vendor `A` completes, vendors
`B` and `C` are still processed (three success rows, no `사용자 중지`
row), contradicting the claim that no vendor after the current one is
processed. -/
theorem stopBatch_stale_closure :
    (∀ (calcInvoice : String → Except String ℤ) (elapsed : Nat → ℤ)
        (ev1 ev2 : Nat → Bool) (vendors : List String),
      handleBatchCalculate calcInvoice elapsed false ev1 vendors
        = handleBatchCalculate calcInvoice elapsed false ev2 vendors) ∧
    handleBatchCalculate (fun _ => Except.ok 1000) (fun _ => 1)
        false (fun i => i == 1) ["A", "B", "C"]
      = [{ vendor := "A", status := BatchStatus.success,
           message := successMessage 1000, duration := some 1 },
         { vendor := "B", status := BatchStatus.success,
           message := successMessage 1000, duration := some 1 },
         { vendor := "C", status := BatchStatus.success,
           message := successMessage 1000, duration := some 1 }] := by
  constructor
  · intro calcInvoice elapsed ev1 ev2 vendors
    exact runBatchFrom_false_events_irrelevant calcInvoice elapsed ev1 ev2
      vendors 0 false false
  · rfl

/-- Claim C4: editing quantity (수량) or unit price (단가) of an item
recomputes its amount (금액) as quantity * unit price, while editing the
amount directly changes only the amount (to the coerced input value) and
leaves quantity and unit price untouched. -/
theorem itemChange_amount_consistency (items : List EditItem) (i : Nat)
    (v : JSValue) :
    (∀ f, (f = ItemField.quantity ∨ f = ItemField.unitPrice) →
      ∀ it, (handleItemChange items i f v)[i]? = some it →
        it.amount = jsMul it.quantity it.unitPrice) ∧
    (∀ it₀ it, items[i]? = some it₀ →
      (handleItemChange items i ItemField.amount v)[i]? = some it →
        it.quantity = it₀.quantity ∧ it.unitPrice = it₀.unitPrice ∧
        it.amount = some (jsOrZero v.asNumber)) := by
  constructor
  · intro f hf it hit
    rw [handleItemChange_getElem items i f v i, if_pos rfl] at hit
    obtain ⟨it₀, _, rfl⟩ := Option.map_eq_some'.mp hit
    rcases hf with rfl | rfl
    · rfl
    · rfl
  · intro it₀ it h₀ hit
    rw [handleItemChange_getElem items i ItemField.amount v i, if_pos rfl,
      h₀] at hit
    simp only [Option.map_some', Option.some.injEq] at hit
    subst hit
    exact ⟨rfl, rfl, rfl⟩

/-- Witness for C4: the single row (수량 40, 단가 500, 금액 20000),
edited at index 0 with input value 3. -/
theorem itemChange_amount_consistency_witness :
    (∀ f, (f = ItemField.quantity ∨ f = ItemField.unitPrice) →
      ∀ it, (handleItemChange
          [{ label := "기본 출고비", quantity := some 40, unitPrice := some 500,
             amount := some 20000, remark := "" }] 0 f
          { asNumber := some 3, asString := "3" })[0]? = some it →
        it.amount = jsMul it.quantity it.unitPrice) ∧
    (∀ it₀ it,
      ([{ label := "기본 출고비", quantity := some 40, unitPrice := some 500,
          amount := some 20000, remark := "" }] : List EditItem)[0]? = some it₀ →
      (handleItemChange
          [{ label := "기본 출고비", quantity := some 40, unitPrice := some 500,
             amount := some 20000, remark := "" }] 0 ItemField.amount
          { asNumber := some 3, asString := "3" })[0]? = some it →
        it.quantity = it₀.quantity ∧ it.unitPrice = it₀.unitPrice ∧
        it.amount = some (jsOrZero (some 3))) :=
  itemChange_amount_consistency
    [{ label := "기본 출고비", quantity := some 40, unitPrice := some 500,
       amount := some 20000, remark := "" }] 0
    { asNumber := some 3, asString := "3" }

/-- Claim C5: the item-edit operation is available and applies regardless
of the invoice's status. For every loaded invoice detail `d` — in
particular whether `d.status` is `확정` (Confirmed) or `미확정`
(Unconfirmed); no code path inspects it — `handleStartEdit` enters edit
mode with a copy of the items, and `handleSave` assembles the PUT request
from the edited items. -/
theorem startEdit_any_status (s : ModalState) (d : InvoiceDetail)
    (h : s.detailInvoice = some d) :
    ((handleStartEdit s).isEditing = true ∧
     (handleStartEdit s).editItems = d.items ∧
     (handleStartEdit s).detailInvoice = some d) ∧
    (∀ newItems, handleSaveRequest
        { s with editItems := newItems } = some (d.invoice_id, newItems)) := by
  constructor
  · refine ⟨?_, ?_, ?_⟩ <;> simp [handleStartEdit, h]
  · intro newItems
    simp [handleSaveRequest, h]

/-- Witness for C5: a Confirmed (확정) invoice is editable. -/
theorem startEdit_any_status_witness :
    ((handleStartEdit
        { detailInvoice := some
            { invoice_id := 7, vendor := "V1", period_from := "2024-01-01",
              period_to := "2024-01-31", total_amount := 20000,
              status := "확정", items := [] },
          isEditing := false, editItems := [] }).isEditing = true ∧
     (handleStartEdit
        { detailInvoice := some
            { invoice_id := 7, vendor := "V1", period_from := "2024-01-01",
              period_to := "2024-01-31", total_amount := 20000,
              status := "확정", items := [] },
          isEditing := false, editItems := [] }).editItems
        = ({ invoice_id := 7, vendor := "V1", period_from := "2024-01-01",
             period_to := "2024-01-31", total_amount := 20000,
             status := "확정", items := [] } : InvoiceDetail).items ∧
     (handleStartEdit
        { detailInvoice := some
            { invoice_id := 7, vendor := "V1", period_from := "2024-01-01",
              period_to := "2024-01-31", total_amount := 20000,
              status := "확정", items := [] },
          isEditing := false, editItems := [] }).detailInvoice
        = some { invoice_id := 7, vendor := "V1", period_from := "2024-01-01",
                 period_to := "2024-01-31", total_amount := 20000,
                 status := "확정", items := [] }) ∧
    (∀ newItems, handleSaveRequest
        { detailInvoice := some
            { invoice_id := 7, vendor := "V1", period_from := "2024-01-01",
              period_to := "2024-01-31", total_amount := 20000,
              status := "확정", items := [] },
          isEditing := false, editItems := newItems }
        = some (7, newItems)) :=
  startEdit_any_status
    { detailInvoice := some
        { invoice_id := 7, vendor := "V1", period_from := "2024-01-01",
          period_to := "2024-01-31", total_amount := 20000,
          status := "확정", items := [] },
      isEditing := false, editItems := [] }
    { invoice_id := 7, vendor := "V1", period_from := "2024-01-01",
      period_to := "2024-01-31", total_amount := 20000,
      status := "확정", items := [] } rfl

/-- Claim C10 (implicit): in the vendor-charge editor, changing the `qty`
or `unit_price` field recomputes the charge's `amount` as
`qty * unit_price`, so after any such edit the charge satisfies
`amount == qty * unit_price`. -/
theorem chargeChange_amount_consistency (c : VendorCharge) (v : JSValue) :
    ((handleChargeChange c ChargeField.qty v).amount
        = jsMul (handleChargeChange c ChargeField.qty v).qty
            (handleChargeChange c ChargeField.qty v).unit_price) ∧
    ((handleChargeChange c ChargeField.unit_price v).amount
        = jsMul (handleChargeChange c ChargeField.unit_price v).qty
            (handleChargeChange c ChargeField.unit_price v).unit_price) :=
  ⟨rfl, rfl⟩

theorem ownerOf_eq_none {r : Registry} {st : SourceType} {a : String}
    (h : ownerOf r st a = none) : ∀ v ∈ r, (st, a) ∉ v.aliases := by
  induction r with
  | nil => simp
  | cons x rest ih =>
    rw [ownerOf] at h
    by_cases hx : (st, a) ∈ x.aliases
    · rw [if_pos hx] at h
      exact absurd h (by simp)
    · rw [if_neg hx] at h
      intro v hv
      rcases List.mem_cons.mp hv with rfl | hrest
      · exact hx
      · exact ih h v hrest

/-- Claim C6: for any source type, no two vendors share an alias.
Assigning an alias already owned by a different vendor for the same
source type is rejected with `AliasConflict` and the registry — hence
the alias sets of both vendors — is left unchanged by the failed attempt;
moreover any `assignAlias` call preserves the alias partition invariant. -/
theorem aliasConflict_rejected :
    (∀ (r : Registry) (vendorId : String) (st : SourceType) (a w : String),
      ownerOf r st a = some w → w ≠ vendorId →
        (assignAlias r vendorId st a).2 = some AliasError.aliasConflict ∧
        (assignAlias r vendorId st a).1 = r) ∧
    (∀ (r : Registry) (vendorId : String) (st : SourceType) (a : String),
      Partitioned r → Partitioned (assignAlias r vendorId st a).1) := by
  constructor
  · intro r vendorId st a w hw hne
    simp [assignAlias, hw, if_neg hne]
  · intro r vendorId st a hp
    cases how : ownerOf r st a with
    | some w =>
      by_cases hweq : w = vendorId
      · simp only [assignAlias, how, if_pos hweq]
        exact hp
      · simp only [assignAlias, how, if_neg hweq]
        exact hp
    | none =>
      simp only [assignAlias, how]
      intro v₁ h₁ v₂ h₂ p hp₁ hp₂
      obtain ⟨u₁, hu₁, rfl⟩ := List.mem_map.mp h₁
      obtain ⟨u₂, hu₂, rfl⟩ := List.mem_map.mp h₂
      have hvid : ∀ u : VendorAliases,
          ((if u.vendorId = vendorId then
              { u with aliases := (st, a) :: u.aliases } else u) : VendorAliases).vendorId
            = u.vendorId := by
        intro u
        by_cases hc : u.vendorId = vendorId
        · rw [if_pos hc]
        · rw [if_neg hc]
      have hmem : ∀ u : VendorAliases,
          p ∈ ((if u.vendorId = vendorId then
              { u with aliases := (st, a) :: u.aliases } else u) : VendorAliases).aliases →
          (p = (st, a) ∧ u.vendorId = vendorId) ∨ p ∈ u.aliases := by
        intro u hpu
        by_cases hc : u.vendorId = vendorId
        · rw [if_pos hc] at hpu
          rcases List.mem_cons.mp hpu with h | h
          · exact Or.inl ⟨h, hc⟩
          · exact Or.inr h
        · rw [if_neg hc] at hpu
          exact Or.inr hpu
      have hnone := ownerOf_eq_none how
      rw [hvid u₁, hvid u₂]
      rcases hmem u₁ hp₁ with ⟨rfl, hc₁⟩ | hm₁
      · rcases hmem u₂ hp₂ with ⟨_, hc₂⟩ | hm₂
        · rw [hc₁, hc₂]
        · exact absurd hm₂ (hnone u₂ hu₂)
      · rcases hmem u₂ hp₂ with ⟨rfl, hc₂⟩ | hm₂
        · exact absurd hm₁ (hnone u₁ hu₁)
        · exact hp u₁ hu₁ u₂ hu₂ p hm₁ hm₂

/-- Witness for C6: `V1` owns alias 가나상사 for shipping stats;
assigning it to `V2` conflicts and changes nothing, and the attempt
preserves the partition invariant. -/
theorem aliasConflict_rejected_witness :
    ((assignAlias
        [{ vendorId := "V1", aliases := [(SourceType.shipping_stats, "가나상사")] },
         { vendorId := "V2", aliases := [] }]
        "V2" SourceType.shipping_stats "가나상사").2
          = some AliasError.aliasConflict ∧
     (assignAlias
        [{ vendorId := "V1", aliases := [(SourceType.shipping_stats, "가나상사")] },
         { vendorId := "V2", aliases := [] }]
        "V2" SourceType.shipping_stats "가나상사").1
          = [{ vendorId := "V1", aliases := [(SourceType.shipping_stats, "가나상사")] },
             { vendorId := "V2", aliases := [] }]) ∧
    Partitioned (assignAlias
        [{ vendorId := "V1", aliases := [(SourceType.shipping_stats, "가나상사")] },
         { vendorId := "V2", aliases := [] }]
        "V2" SourceType.shipping_stats "가나상사").1 :=
  ⟨aliasConflict_rejected.1
      [{ vendorId := "V1", aliases := [(SourceType.shipping_stats, "가나상사")] },
       { vendorId := "V2", aliases := [] }]
      "V2" SourceType.shipping_stats "가나상사" "V1" (by decide) (by decide),
   aliasConflict_rejected.2
      [{ vendorId := "V1", aliases := [(SourceType.shipping_stats, "가나상사")] },
       { vendorId := "V2", aliases := [] }]
      "V2" SourceType.shipping_stats "가나상사" (by decide)⟩

/-- Claim C7: the shipping-zone lookup returns the price of the band
whose half-open interval `[lengthMinCm, lengthMaxCm)` contains the
length — any band it returns is in the table, matches the rate plan and
contains the length; under the per-plan non-overlap invariant the lookup
finds exactly the covering band; and it fails with `RateNotFound` when no
band covers the value. In particular, for rate plan `A` with the band
`(A, "2구간", 30, 40, 3000)`, a shipping-stats row of length 35cm yields
one invoice item with quantity 1, unit price 3000 and amount 3000 under
zone label `2구간`. -/
theorem shippingZonePrice_halfOpen :
    (∀ (rates : List ShippingZoneRate) (plan : String) (len : ℤ)
        (b : ShippingZoneRate),
      findZone rates plan len = some b →
        b ∈ rates ∧ b.ratePlan = plan ∧ b.len_min_cm ≤ len ∧ len < b.len_max_cm ∧
        shippingZonePrice rates plan len = Except.ok b.price) ∧
    (∀ (rates : List ShippingZoneRate) (plan : String) (len : ℤ),
      (∀ b ∈ rates, b.ratePlan = plan →
          ¬(b.len_min_cm ≤ len ∧ len < b.len_max_cm)) →
      shippingZonePrice rates plan len = Except.error "RateNotFound") ∧
    (∀ (rates : List ShippingZoneRate) (plan : String) (len : ℤ)
        (b : ShippingZoneRate),
      ZonesDisjoint rates plan → b ∈ rates → b.ratePlan = plan →
      b.len_min_cm ≤ len → len < b.len_max_cm →
        shippingZonePrice rates plan len = Except.ok b.price) ∧
    calculateInvoice c7State "V1" 0 31 c7Opts = Except.ok c7Result := by
  refine ⟨?_, ?_, ?_, ?_⟩
  · intro rates plan len b h
    have hmb : ∀ (rs : List ShippingZoneRate), findZone rs plan len = some b →
        b ∈ rs ∧ b.ratePlan = plan ∧ b.len_min_cm ≤ len ∧ len < b.len_max_cm := by
      intro rs
      induction rs with
      | nil => intro h'; exact absurd h' (by simp [findZone])
      | cons c rest ih =>
        intro h'
        rw [findZone] at h'
        by_cases hc : c.ratePlan = plan ∧ c.len_min_cm ≤ len ∧ len < c.len_max_cm
        · rw [if_pos hc] at h'
          injection h' with h'
          subst h'
          exact ⟨by simp, hc.1, hc.2.1, hc.2.2⟩
        · rw [if_neg hc] at h'
          obtain ⟨hm, hrest⟩ := ih h'
          exact ⟨by simp [hm], hrest⟩
    obtain ⟨hm, hplan, hlo, hhi⟩ := hmb rates h
    exact ⟨hm, hplan, hlo, hhi, by simp [shippingZonePrice, h]⟩
  · intro rates plan len hnone
    have hfz : ∀ (rs : List ShippingZoneRate),
        (∀ b ∈ rs, b.ratePlan = plan →
            ¬(b.len_min_cm ≤ len ∧ len < b.len_max_cm)) →
        findZone rs plan len = none := by
      intro rs
      induction rs with
      | nil => intro _; rfl
      | cons c rest ih =>
        intro hn
        rw [findZone]
        have hc : ¬(c.ratePlan = plan ∧ c.len_min_cm ≤ len ∧ len < c.len_max_cm) := by
          rintro ⟨h1, h2, h3⟩
          exact hn c (by simp) h1 ⟨h2, h3⟩
        rw [if_neg hc]
        exact ih (fun b hb hr => hn b (by simp [hb]) hr)
    simp [shippingZonePrice, hfz rates hnone]
  · intro rates plan len b hdisj hmem hplan hlo hhi
    have hfind : ∀ (rs : List ShippingZoneRate), ZonesDisjoint rs plan → b ∈ rs →
        ∃ c, findZone rs plan len = some c ∧ c.price = b.price := by
      intro rs
      induction rs with
      | nil => intro _ hb; exact absurd hb (by simp)
      | cons c rest ih =>
        intro hd hb
        rw [findZone]
        by_cases hc : c.ratePlan = plan ∧ c.len_min_cm ≤ len ∧ len < c.len_max_cm
        · rw [if_pos hc]
          rcases List.mem_cons.mp hb with hbc | hbr
          · exact ⟨c, rfl, by rw [hbc]⟩
          · have hcb : c = b := by
              refine hd c (by simp) b (by simp [hbr]) hc.1 hplan ?_ ?_
              · exact lt_of_le_of_lt hc.2.1 hhi
              · exact lt_of_le_of_lt hlo hc.2.2
            exact ⟨c, rfl, by rw [hcb]⟩
        · rw [if_neg hc]
          have hbr : b ∈ rest := by
            rcases List.mem_cons.mp hb with hbc | hbr
            · exact absurd ⟨hbc ▸ hplan, hbc ▸ hlo, hbc ▸ hhi⟩ hc
            · exact hbr
          have hdrest : ZonesDisjoint rest plan := by
            intro b₁ h₁ b₂ h₂ hp₁ hp₂ ho₁ ho₂
            exact hd b₁ (by simp [h₁]) b₂ (by simp [h₂]) hp₁ hp₂ ho₁ ho₂
          exact ih hdrest hbr
    obtain ⟨c, hfc, hcp⟩ := hfind rates hdisj hmem
    simp [shippingZonePrice, hfc, hcp]
  · rfl

/-- Witness for C7: the single-band table `(A, "2구간", 30, 40, 3000)`
at length 35. -/
theorem shippingZonePrice_halfOpen_witness :
    (exampleBand ∈ [exampleBand] ∧ exampleBand.ratePlan = "A" ∧
     exampleBand.len_min_cm ≤ 35 ∧ (35 : ℤ) < exampleBand.len_max_cm ∧
     shippingZonePrice [exampleBand] "A" 35 = Except.ok exampleBand.price) ∧
    shippingZonePrice [exampleBand] "A" 35 = Except.ok exampleBand.price :=
  ⟨shippingZonePrice_halfOpen.1 [exampleBand] "A" 35 exampleBand (by decide),
   shippingZonePrice_halfOpen.2.2.1 [exampleBand] "A" 35 exampleBand
     (by decide) (by simp) (by decide) (by decide) (by decide)⟩

/-- Claim C8: `calculateInvoice` is deterministic in its inputs and the
current rate/source state. Two calls with identical vendor, date range
and option flags against the same state produce identical items and
total; and the result depends only on the billing-relevant state (vendor
table, registry, rate tables, source rows) — two states differing only in
components the engine does not read (activity log, company settings)
produce identical results. -/
theorem calculateInvoice_deterministic :
    (∀ (st : EngineState) (vendorId : String) (d₁ d₂ : ℤ) (opts : CalcOptions)
        (r₁ r₂ : CalcResult),
      calculateInvoice st vendorId d₁ d₂ opts = Except.ok r₁ →
      calculateInvoice st vendorId d₁ d₂ opts = Except.ok r₂ →
        r₁.items = r₂.items ∧ r₁.total_amount = r₂.total_amount) ∧
    (∀ (st₁ st₂ : EngineState) (vendorId : String) (d₁ d₂ : ℤ)
        (opts : CalcOptions),
      st₁.vendors = st₂.vendors → st₁.registry = st₂.registry →
      st₁.outBasicRates = st₂.outBasicRates →
      st₁.outExtraRates = st₂.outExtraRates →
      st₁.shippingZoneRates = st₂.shippingZoneRates →
      st₁.remoteFeePerUnit = st₂.remoteFeePerUnit →
      st₁.vendorChargesTable = st₂.vendorChargesTable →
      st₁.storageFeesTable = st₂.storageFeesTable →
      st₁.inboundRows = st₂.inboundRows → st₁.shippingRows = st₂.shippingRows →
      st₁.kpostInRows = st₂.kpostInRows → st₁.kpostRetRows = st₂.kpostRetRows →
      st₁.workLogRows = st₂.workLogRows →
      calculateInvoice st₁ vendorId d₁ d₂ opts
        = calculateInvoice st₂ vendorId d₁ d₂ opts) := by
  constructor
  · intro st vendorId d₁ d₂ opts r₁ r₂ h₁ h₂
    rw [h₁] at h₂
    injection h₂ with h₂
    rw [h₂]
    exact ⟨rfl, rfl⟩
  · intro st₁ st₂ vendorId d₁ d₂ opts h1 h2 h3 h4 h5 h6 h7 h8 h9 h10 h11 h12 h13
    cases st₁
    cases st₂
    dsimp only at h1 h2 h3 h4 h5 h6 h7 h8 h9 h10 h11 h12 h13
    subst h1; subst h2; subst h3; subst h4; subst h5; subst h6; subst h7
    subst h8; subst h9; subst h10; subst h11; subst h12; subst h13
    rfl

/-- Witness for C8: the vendor-only state `c8StateA` versus `c8StateB`,
which differs from it exactly in the activity log and company settings. -/
theorem calculateInvoice_deterministic_witness :
    (({ vendor := "V1", date_from := 0, date_to := 31, items := [],
        total_amount := 0,
        warnings := ["기본 출고비: 기간 내 출고 데이터 없음"] } : CalcResult).items
       = ({ vendor := "V1", date_from := 0, date_to := 31, items := [],
            total_amount := 0,
            warnings := ["기본 출고비: 기간 내 출고 데이터 없음"] } : CalcResult).items ∧
     ({ vendor := "V1", date_from := 0, date_to := 31, items := [],
        total_amount := 0,
        warnings := ["기본 출고비: 기간 내 출고 데이터 없음"] } : CalcResult).total_amount
       = ({ vendor := "V1", date_from := 0, date_to := 31, items := [],
            total_amount := 0,
            warnings := ["기본 출고비: 기간 내 출고 데이터 없음"] } : CalcResult).total_amount) ∧
    calculateInvoice c8StateA "V1" 0 31 {} = calculateInvoice c8StateB "V1" 0 31 {} :=
  ⟨calculateInvoice_deterministic.1 c8StateA "V1" 0 31 {}
      { vendor := "V1", date_from := 0, date_to := 31, items := [],
        total_amount := 0,
        warnings := ["기본 출고비: 기간 내 출고 데이터 없음"] }
      { vendor := "V1", date_from := 0, date_to := 31, items := [],
        total_amount := 0,
        warnings := ["기본 출고비: 기간 내 출고 데이터 없음"] } rfl rfl,
   calculateInvoice_deterministic.2 c8StateA c8StateB "V1" 0 31 {}
      rfl rfl rfl rfl rfl rfl rfl rfl rfl rfl rfl rfl rfl⟩

/-- Claim C3: for every invoice the total equals the sum of the amounts of its items — immediately after calculation (the engine assembles
`totalAmount = sum(item.amount)`), after every persisted item edit
(`editItems` recomputes the total from the submitted list), and for the synchronously displayed editor total after every item-editor
interaction. -/
theorem invoiceTotal_eq_sumItems :
    (∀ (st : EngineState) (vendorId : String) (d₁ d₂ : ℤ) (opts : CalcOptions)
        (r : CalcResult),
      calculateInvoice st vendorId d₁ d₂ opts = Except.ok r →
        r.total_amount = (r.items.map (fun it => it.amount)).sum) ∧
    (∀ (inv : StoredInvoice) (newItems : List Item) (modifier : String),
      (editItems inv newItems modifier).total_amount
        = ((editItems inv newItems modifier).items.map (fun it => it.amount)).sum) ∧
    (∀ (items : List EditItem) (op : EditOp),
      editTotalAmount (applyEditOp items op)
        = sumAmounts (applyEditOp items op)) := by
  refine ⟨?_, fun inv newItems modifier => rfl,
    fun items op => editTotalAmount_eq_sumAmounts _⟩
  intro st vendorId d₁ d₂ opts r h
  rw [calculateInvoice] at h
  cases hfind : st.vendors.find? (fun v => v.vendorId == vendorId) with
  | none => rw [hfind] at h; exact absurd h (by simp)
  | some v =>
    rw [hfind] at h
    injection h with h
    rw [← h]
    rfl

/-- Witness for C3: the courier-fee example invoice. -/
theorem invoiceTotal_eq_sumItems_witness :
    (c7Result.total_amount = (c7Result.items.map (fun it => it.amount)).sum) ∧
    ((editItems
        { invoice_id := 1, vendor_id := "V1", period_from := "2024-01-01",
          period_to := "2024-01-31", items := [], total_amount := 0,
          status := "미확정", modified_by := none }
        [{ label := "기본 출고비", quantity := 40, unitPrice := 500,
           amount := 20000, remark := "" }] "관리자").total_amount
      = ((editItems
          { invoice_id := 1, vendor_id := "V1", period_from := "2024-01-01",
            period_to := "2024-01-31", items := [], total_amount := 0,
            status := "미확정", modified_by := none }
          [{ label := "기본 출고비", quantity := 40, unitPrice := 500,
             amount := 20000, remark := "" }] "관리자").items.map
            (fun it => it.amount)).sum) ∧
    (editTotalAmount (applyEditOp [] EditOp.add)
      = sumAmounts (applyEditOp [] EditOp.add)) :=
  ⟨invoiceTotal_eq_sumItems.1 c7State "V1" 0 31 c7Opts c7Result rfl,
   invoiceTotal_eq_sumItems.2.1
      { invoice_id := 1, vendor_id := "V1", period_from := "2024-01-01",
        period_to := "2024-01-31", items := [], total_amount := 0,
        status := "미확정", modified_by := none }
      [{ label := "기본 출고비", quantity := 40, unitPrice := 500,
         amount := 20000, remark := "" }] "관리자",
   invoiceTotal_eq_sumItems.2.2 [] EditOp.add⟩

end Billing

